import Mathlib

/-!
Verification of the mongodialect generic repository layer.

The Go source is embedded shallowly:

* Go reflect types are modelled by the inductive GoType; struct fields carry
  the field name and the optional bson tag, which is all the repository code
  ever inspects on a field.
* The mongo driver, the mapstructure decoder and the cursor are external
  collaborators; they are modelled by an oracle structure DB whose fields fix
  the outcome of each driver primitive. Every repository operation returns,
  besides its Go result tuple, the list of driver calls it issued, each call
  recording the context value it received. Cursor advancement in the source
  (decodeCursor) passes context.Background(), which the model records as
  Ctx.background.
* Go functions returning (value, error) pairs are modelled as pairs of the
  value and an Option of the error. A reflect panic (Elem on a non-pointer
  kind, NumField on a non-struct kind) is modelled by returning none from
  the enclosing operation.
* The in-place mutation of the caller map performed by filterMap via delete
  is modelled by explicit state passing: Update returns the final contents of
  the caller map as a separate component.
-/

set_option autoImplicit false

namespace Mongodialect

/-- Kinds of Go reflect types, as compared by reflect.Kind. -/
inductive GoKind where
  | ptrK
  | structK
  | intK
  | stringK
  | boolK
  deriving DecidableEq, Repr

/-- A struct field as the repository inspects it: its Go name and the raw
bson tag when one is present. Field value types are never read by the
embedded code paths, so they are not modelled. -/
structure StructField where
  name : String
  bsonTag : Option String
  deriving DecidableEq, Repr

/-- Go reflect types, restricted to the kinds the repository distinguishes. -/
inductive GoType where
  | ptrT (elem : GoType)
  | structT (fields : List StructField)
  | intT
  | stringT
  | boolT
  deriving DecidableEq, Repr

/-- reflect.Type.Kind. -/
def GoType.kind : GoType → GoKind
  | .ptrT _ => .ptrK
  | .structT _ => .structK
  | .intT => .intK
  | .stringT => .stringK
  | .boolT => .boolK

/-- Errors of the embedded layer: the four sentinel errors of the package,
the formatted baseType error of NewRepository, and opaque driver, decode and
ping errors produced by the external collaborators. -/
inductive GoError where
  | driverNil
  | collectionEmpty
  | documentNotFound
  | multipleMatches
  | typeError (kind : GoKind)
  | driverErr (code : Nat)
  deriving DecidableEq, Repr

/-- The mongo client handle; pingError fixes the outcome that Ping would
return in the current world (none meaning success). -/
structure Client where
  pingError : Option GoError
  deriving DecidableEq, Repr

/-- The Driver of the package: only the fields the embedded code reads are
modelled; the URL, database name and options never influence the logic
under verification. -/
structure Driver where
  client : Option Client
  deriving DecidableEq, Repr

/-- Driver.IsAlive from the source: returns false when Client is nil, and
otherwise returns the comparison of the Ping result against nil exactly as
written in the source, namely Ping(ctx, nil) != nil. -/
def Driver.IsAlive (driver : Driver) : Bool :=
  match driver.client with
  | none => false
  | some c => c.pingError.isSome

/-- Driver.CloseConnection: nil client is a no-op; otherwise the outcome of
Disconnect is delegated to the collaborator (not needed by the claims, kept
for completeness of the handle contract). -/
def Driver.CloseConnection (driver : Driver) : Driver × Option GoError :=
  match driver.client with
  | none => (driver, none)
  | some _ => ({ client := none }, none)

/-- The Repository record of the source. -/
structure Repository where
  baseType : GoType
  idField : String
  collection : String
  driver : Driver
  deriving DecidableEq, Repr

/-- NewRepository from the source: nil driver, then empty collection string,
then non-pointer kind are rejected in that order; an empty idField string
falls back to the default mongo id. -/
def NewRepository (baseType : GoType) (driver : Option Driver)
    (collection : String) (idField : String) : Except GoError Repository :=
  match driver with
  | none => Except.error GoError.driverNil
  | some d =>
    if collection = "" then Except.error GoError.collectionEmpty
    else if baseType.kind ≠ GoKind.ptrK then
      Except.error (GoError.typeError baseType.kind)
    else
      Except.ok
        { baseType := baseType
          idField := if idField = "" then "_id" else idField
          collection := collection
          driver := d }

/-- Whether an Except value is a success, as Go callers observe err == nil. -/
def isOk {α : Type} (e : Except GoError α) : Bool :=
  match e with
  | .ok _ => true
  | .error _ => false

/-- strings.Trim(s, " "): remove leading and trailing space characters. -/
def trimSpaces (s : String) : String :=
  String.mk (((s.data.dropWhile fun c => c = ' ').reverse.dropWhile
    fun c => c = ' ').reverse)

/-- The first comma-separated segment of a character list, modelling the
index-zero element of strings.Split with separator ",". -/
def takeUntilComma : List Char → List Char
  | [] => []
  | c :: cs => if c = ',' then [] else c :: takeUntilComma cs

/-- The storage name a field contributes to the fieldMappings map: the field
name when the bson tag is absent, otherwise the first comma-separated
segment of the space-trimmed tag. -/
def bsonKey (f : StructField) : String :=
  match f.bsonTag with
  | none => f.name
  | some tag => String.mk (takeUntilComma (trimSpaces tag).data)

/-- The fieldMappings map built by filterMap: storage name to Go field name,
with later fields overwriting earlier ones on storage-name collision, as Go
map assignment does during the index-ordered loop. -/
def fieldMappings (fields : List StructField) : String → Option String :=
  fields.foldl (fun m f => fun k => if k = bsonKey f then some f.name else m k)
    (fun _ => none)

/-- reflect FieldByName restricted to the ok result: whether the struct has
a field of the given name. Go structs never contain a field whose name is
the empty string, matching the lookup on the zero value of a missing map
key in the source. -/
def hasFieldNamed (fields : List StructField) (n : String) : Bool :=
  fields.any fun f => f.name = n

/-- Whether filterMap keeps a key of the changes map: the key is resolved
through fieldMappings (a missing entry yielding the empty string, the zero
value of the Go map) and kept when FieldByName finds the resolved name. -/
def keepKey (fields : List StructField) (k : String) : Bool :=
  hasFieldNamed fields ((fieldMappings fields k).getD "")

/-- A context value passed to a driver primitive: either the caller-supplied
context (tagged so that distinct callers are distinguishable) or the result
of context.Background() as used inside decodeCursor. -/
inductive Ctx where
  | caller (n : Nat)
  | background
  deriving DecidableEq, Repr

/-- mongo.UpdateResult. -/
structure UpdateResult (V : Type) where
  matchedCount : Int
  modifiedCount : Int
  upsertedCount : Int
  upsertedID : Option V
  deriving DecidableEq, Repr

/-- mongo.InsertOneResult. -/
structure InsertOneResult (V : Type) where
  insertedID : Option V
  deriving DecidableEq, Repr

/-- mongo.InsertManyResult. -/
structure InsertManyResult (V : Type) where
  insertedIDs : List V
  deriving DecidableEq, Repr

/-- mongo.DeleteResult. -/
structure DeleteResult where
  deletedCount : Int
  deriving DecidableEq, Repr

/-- One call issued to the external driver, recording the context value the
call received and its payload. D is the type of raw cursor documents and V
the type of Go interface values. The upsert flag of updateOne records the
upsert option of the request; the source never passes update options, so
the mongo default (no upsert) applies. -/
inductive DCall (D V : Type) where
  | findQ (ctx : Ctx) (filter : List (String × V))
  | next (ctx : Ctx)
  | insertOne (ctx : Ctx) (v : V)
  | insertMany (ctx : Ctx) (vs : List V)
  | updateOne (ctx : Ctx) (filter : List (String × V))
      (setFields : List (String × V)) (upsert : Bool)
  | deleteOne (ctx : Ctx) (filter : List (String × V))
  | deleteMany (ctx : Ctx) (filter : List (String × V))
  deriving DecidableEq, Repr

/-- The external collaborators (mongo driver, cursor decoding, mapstructure):
an oracle fixing the outcome of each primitive the repository invokes.

findOutcome models collection.Find: a query error, or the raw documents the
returned cursor will yield. decode models cursor.Decode into a freshly
allocated instance: the resulting value together with the error slot.
mapDecode models mapstructure.Decode of a caller value into a freshly
allocated instance of the given element type. The remaining fields model
the write primitives, each returning the Go pair of a nullable result and
a nullable error. -/
structure DB (D V : Type) where
  findOutcome : List (String × V) → Except GoError (List D)
  decode : D → V × Option GoError
  mapDecode : GoType → V → V × Option GoError
  insertOneOutcome : V → Option (InsertOneResult V) × Option GoError
  insertManyOutcome : List V → Option (InsertManyResult V) × Option GoError
  updateOneOutcome : List (String × V) → List (String × V) →
    Option (UpdateResult V) × Option GoError
  deleteOneOutcome : List (String × V) → Option DeleteResult × Option GoError
  deleteManyOutcome : List (String × V) → Option DeleteResult × Option GoError

section Operations

variable {D V : Type}

/-- decodeCursor from the source: iterate the cursor, advancing with
context.Background() exactly as written in the source, decode each document
into a fresh instance, abandon the accumulated slice and return the error
as soon as one document fails to decode. The trace records one cursor
advancement per document consumed plus the final advancement that reports
exhaustion; on a decode failure the loop body returns before any further
advancement. -/
def decodeCursorGo (db : DB D V) : List D →
    (List V × Option GoError) × List (DCall D V)
  | [] => (([], none), [DCall.next Ctx.background])
  | d :: ds =>
    match db.decode d with
    | (_, some e) => (([], some e), [DCall.next Ctx.background])
    | (v, none) =>
      match decodeCursorGo db ds with
      | ((vs, none), tr) => ((v :: vs, none), DCall.next Ctx.background :: tr)
      | ((_, some e), tr) => (([], some e), DCall.next Ctx.background :: tr)

/-- Repository.Find from the source: issue the query with the caller
context; on a query error return the nil slice and that error; otherwise
decode the cursor. -/
def Repository.Find (r : Repository) (db : DB D V) (ctx : Ctx)
    (f : List (String × V)) : (List V × Option GoError) × List (DCall D V) :=
  match db.findOutcome f with
  | .error e => (([], some e), [DCall.findQ ctx f])
  | .ok docs =>
    match decodeCursorGo db docs with
    | (res, tr) => (res, DCall.findQ ctx f :: tr)

/-- Repository.FindByID from the source: delegate to Find with the
single-key id filter, propagate its error, then switch on the number of
matches: zero yields ErrDocumentNotFound, more than one yields
ErrMultipleMatches, otherwise the single match is returned. -/
def Repository.FindByID (r : Repository) (db : DB D V) (ctx : Ctx) (id : V) :
    (Option V × Option GoError) × List (DCall D V) :=
  match r.Find db ctx [(r.idField, id)] with
  | ((_, some e), tr) => ((none, some e), tr)
  | ((ms, none), tr) =>
    if ms.length = 0 then ((none, some GoError.documentNotFound), tr)
    else if ms.length > 1 then ((none, some GoError.multipleMatches), tr)
    else ((ms.head?, none), tr)

/-- Repository.Exists from the source: run Find and return the comparison
of the match count against zero together with the error slot of Find. -/
def Repository.Exists (r : Repository) (db : DB D V) (ctx : Ctx)
    (f : List (String × V)) : (Bool × Option GoError) × List (DCall D V) :=
  match r.Find db ctx f with
  | ((ms, err), tr) => ((decide (ms.length > 0), err), tr)

/-- Repository.ExistsByID from the source: Exists on the single-key id
filter. -/
def Repository.ExistsByID (r : Repository) (db : DB D V) (ctx : Ctx)
    (id : V) : (Bool × Option GoError) × List (DCall D V) :=
  r.Exists db ctx [(r.idField, id)]

/-- decodeIntoBase from the source: allocate a fresh instance of the element
type of the base type and decode the argument into it with mapstructure.
Elem on a non-pointer kind is a reflect panic, modelled as none; for every
repository built by NewRepository the base type is a pointer and the result
is some. -/
def Repository.decodeIntoBaseGo (r : Repository) (db : DB D V) (v : V) :
    Option (V × Option GoError) :=
  match r.baseType with
  | .ptrT el => some (db.mapDecode el v)
  | _ => none

/-- Repository.Insert from the source: decode the value into the base type,
fail without any driver call when the decode fails, otherwise issue the
single insert. -/
def Repository.Insert (r : Repository) (db : DB D V) (ctx : Ctx) (v : V) :
    Option ((Option (InsertOneResult V) × Option GoError) × List (DCall D V)) :=
  match r.decodeIntoBaseGo db v with
  | none => none
  | some (_, some e) => some ((none, some e), [])
  | some (dec, none) =>
    some (db.insertOneOutcome dec, [DCall.insertOne ctx dec])

/-- The loop of InsertMany: decode each element in input order into the
element type, returning the error of the first element whose decode fails,
or the list of all decoded values in input order. -/
def decodeAll (db : DB D V) (el : GoType) : List V → Except GoError (List V)
  | [] => .ok []
  | v :: vs =>
    match db.mapDecode el v with
    | (_, some e) => .error e
    | (dec, none) =>
      match decodeAll db el vs with
      | .error e => .error e
      | .ok ds => .ok (dec :: ds)

/-- Repository.InsertMany from the source: decode every element in input
order, fail with the first decode error without any driver call, otherwise
issue exactly one batched insert carrying all decoded values in order. The
Elem reflect panic on a non-pointer base type is modelled as none. -/
def Repository.InsertMany (r : Repository) (db : DB D V) (ctx : Ctx)
    (vs : List V) :
    Option ((Option (InsertManyResult V) × Option GoError) × List (DCall D V)) :=
  match r.baseType with
  | .ptrT el =>
    match decodeAll db el vs with
    | .error e => some ((none, some e), [])
    | .ok decoded =>
      some (db.insertManyOutcome decoded, [DCall.insertMany ctx decoded])
  | _ => none

/-- The pure content of filterMap on a struct element type: the entries of
the caller map whose key keepKey accepts (the others are deleted). -/
def filterMapPure (fields : List StructField) (v : List (String × V)) :
    List (String × V) :=
  v.filter fun kv => keepKey fields kv.1

/-- The filtering step of Update (filterMap in the source), as the final
contents of the caller map after the in-place deletes: only the keys that
keepKey accepts survive. Elem on a non-pointer kind and NumField on a
non-struct kind are reflect panics, modelled as none. -/
def Repository.filterMapGo (r : Repository) (v : List (String × V)) :
    Option (List (String × V)) :=
  match r.baseType with
  | .ptrT (.structT fields) => some (filterMapPure fields v)
  | _ => none

/-- The zero-effect update descriptor the source returns on the
short-circuit path. -/
def zeroUpdateResult (V : Type) : UpdateResult V :=
  { matchedCount := 0, modifiedCount := 0, upsertedCount := 0,
    upsertedID := none }

/-- Repository.Update from the source: mutate the changes map in place via
filterMap, short-circuit with the zero descriptor and no driver call when
nothing survives, otherwise issue one UpdateOne whose update document sets
exactly the surviving keys and whose options leave upsert at the default
false. The second component of the result is the final contents of the
caller-supplied changes map; none models the reflect panic of filterMap on
a base type whose pointee is not a struct. -/
def Repository.Update (r : Repository) (db : DB D V) (ctx : Ctx)
    (f : List (String × V)) (changes : List (String × V)) :
    Option ((Option (UpdateResult V) × Option GoError) ×
      (List (String × V) × List (DCall D V))) :=
  match r.filterMapGo changes with
  | none => none
  | some kept =>
    if kept.length = 0 then
      some ((some (zeroUpdateResult V), none), (kept, []))
    else
      some (db.updateOneOutcome f kept,
        (kept, [DCall.updateOne ctx f kept false]))

/-- Repository.UpdateByID from the source: Update on the single-key id
filter. -/
def Repository.UpdateByID (r : Repository) (db : DB D V) (ctx : Ctx)
    (id : V) (changes : List (String × V)) :
    Option ((Option (UpdateResult V) × Option GoError) ×
      (List (String × V) × List (DCall D V))) :=
  r.Update db ctx [(r.idField, id)] changes

/-- Repository.Delete from the source: one DeleteOne on the filter. -/
def Repository.Delete (r : Repository) (db : DB D V) (ctx : Ctx)
    (f : List (String × V)) :
    (Option DeleteResult × Option GoError) × List (DCall D V) :=
  (db.deleteOneOutcome f, [DCall.deleteOne ctx f])

/-- Repository.DeleteMany from the source: one DeleteMany on the filter. -/
def Repository.DeleteMany (r : Repository) (db : DB D V) (ctx : Ctx)
    (f : List (String × V)) :
    (Option DeleteResult × Option GoError) × List (DCall D V) :=
  (db.deleteManyOutcome f, [DCall.deleteMany ctx f])

/-- Repository.DeleteByID from the source: Delete on the single-key id
filter. -/
def Repository.DeleteByID (r : Repository) (db : DB D V) (ctx : Ctx)
    (id : V) : (Option DeleteResult × Option GoError) × List (DCall D V) :=
  r.Delete db ctx [(r.idField, id)]

end Operations

/-! Concrete fixtures, mirroring the test setup of the repository
(testDocument with its bson tags, collection "test", id field "ID"). -/

/-- A driver value that was never opened. -/
def d0 : Driver := { client := none }

/-- The fields of testDocument from the test setup, with their bson tags. -/
def testFields : List StructField :=
  [ { name := "ID", bsonTag := some "ID, omitempty" },
    { name := "Name", bsonTag := some "name, omitempty" },
    { name := "Surname", bsonTag := some "surname, omitempty" },
    { name := "Age", bsonTag := some "age, omitempty" } ]

/-- The repository the test setup constructs. -/
def repoTest : Repository :=
  { baseType := GoType.ptrT (GoType.structT testFields)
    idField := "ID"
    collection := "test"
    driver := d0 }

/-- A repository over a pointer-to-int base type, which NewRepository
accepts. -/
def repoInt : Repository :=
  { baseType := GoType.ptrT GoType.intT
    idField := "_id"
    collection := "c"
    driver := d0 }

/-- An oracle over Nat documents and Nat values in which every primitive
succeeds and queries match nothing. -/
def db0 : DB Nat Nat :=
  { findOutcome := fun _ => Except.ok []
    decode := fun d => (d, none)
    mapDecode := fun _ v => (v, none)
    insertOneOutcome := fun v => (some { insertedID := some v }, none)
    insertManyOutcome := fun vs => (some { insertedIDs := vs }, none)
    updateOneOutcome := fun _ _ =>
      (some { matchedCount := 1, modifiedCount := 1, upsertedCount := 0,
              upsertedID := none }, none)
    deleteOneOutcome := fun _ => (some { deletedCount := 1 }, none)
    deleteManyOutcome := fun _ => (some { deletedCount := 1 }, none) }

/-- Like db0 but every query yields exactly one raw document. -/
def db1 : DB Nat Nat :=
  { db0 with findOutcome := fun _ => Except.ok [0] }

/-- Like db0 but queries yield the documents 1 and 13, cursor decoding
fails on document 13, and mapstructure decoding fails on the value 13. -/
def db2 : DB Nat Nat :=
  { db0 with
    findOutcome := fun _ => Except.ok [1, 13]
    decode := fun d => if d = 13 then (0, some (GoError.driverErr 9)) else (d, none)
    mapDecode := fun _ v =>
      if v = 13 then (v, some (GoError.driverErr 7)) else (v, none) }

/-! Helper lemmas about the decoding loops. -/

section Lemmas

variable {D V : Type}

/-- When every element decodes cleanly, the InsertMany loop yields all
decoded values in input order. -/
theorem decodeAll_ok_of_all_none (db : DB D V) (el : GoType) (vs : List V)
    (h : ∀ v ∈ vs, (db.mapDecode el v).2 = none) :
    decodeAll db el vs = Except.ok (vs.map fun v => (db.mapDecode el v).1) := by
  induction vs with
  | nil => rfl
  | cons v vs ih =>
    have hv : (db.mapDecode el v).2 = none := h v (List.mem_cons_self v vs)
    have ih2 : decodeAll db el vs =
        Except.ok (vs.map fun u => (db.mapDecode el u).1) :=
      ih fun u hu => h u (List.mem_cons_of_mem v hu)
    rcases hm : db.mapDecode el v with ⟨dec, err⟩
    rw [hm] at hv
    simp only at hv
    subst hv
    simp [decodeAll, hm, ih2]

/-- When the first failing element fails with e, the InsertMany loop
returns e. -/
theorem decodeAll_error_of_first (db : DB D V) (el : GoType) (pre : List V)
    (v : V) (post : List V) (e : GoError)
    (hpre : ∀ u ∈ pre, (db.mapDecode el u).2 = none)
    (hv : (db.mapDecode el v).2 = some e) :
    decodeAll db el (pre ++ v :: post) = Except.error e := by
  induction pre with
  | nil =>
    rcases hm : db.mapDecode el v with ⟨dec, err⟩
    rw [hm] at hv
    simp only at hv
    subst hv
    simp [decodeAll, hm]
  | cons u us ih =>
    have hu : (db.mapDecode el u).2 = none := hpre u (List.mem_cons_self u us)
    have ih2 := ih fun w hw => hpre w (List.mem_cons_of_mem u hw)
    rcases hm : db.mapDecode el u with ⟨dec, err⟩
    rw [hm] at hu
    simp only at hu
    subst hu
    simp [decodeAll, hm, ih2]

/-- When every document decodes cleanly, the cursor loop yields all decoded
values in order, no error, and one background-context advancement per
document plus the final advancement reporting exhaustion. -/
theorem decodeCursorGo_ok (db : DB D V) (docs : List D)
    (h : ∀ d ∈ docs, (db.decode d).2 = none) :
    decodeCursorGo db docs =
      ((docs.map fun d => (db.decode d).1, none),
        List.replicate (docs.length + 1) (DCall.next Ctx.background)) := by
  induction docs with
  | nil => rfl
  | cons d ds ih =>
    have hd : (db.decode d).2 = none := h d (List.mem_cons_self d ds)
    have ih2 := ih fun x hx => h x (List.mem_cons_of_mem d hx)
    rcases hm : db.decode d with ⟨v, err⟩
    rw [hm] at hd
    simp only at hd
    subst hd
    simp [decodeCursorGo, hm, ih2, List.replicate_succ]

/-- When the first failing document fails with e, the cursor loop discards
everything decoded so far and returns e. -/
theorem decodeCursorGo_error (db : DB D V) (pre : List D) (d : D)
    (post : List D) (e : GoError)
    (hpre : ∀ x ∈ pre, (db.decode x).2 = none)
    (hd : (db.decode d).2 = some e) :
    (decodeCursorGo db (pre ++ d :: post)).1 = ([], some e) := by
  induction pre with
  | nil =>
    rcases hm : db.decode d with ⟨v, err⟩
    rw [hm] at hd
    simp only at hd
    subst hd
    simp [decodeCursorGo, hm]
  | cons x xs ih =>
    have hx : (db.decode x).2 = none := hpre x (List.mem_cons_self x xs)
    have ih2 := ih fun y hy => hpre y (List.mem_cons_of_mem x hy)
    rcases hm : db.decode x with ⟨v, err⟩
    rw [hm] at hx
    simp only at hx
    subst hx
    rcases hrec : decodeCursorGo db (xs ++ d :: post) with ⟨⟨vs, err2⟩, tr⟩
    rw [hrec] at ih2
    simp only [Prod.mk.injEq] at ih2
    obtain ⟨h1, h2⟩ := ih2
    subst h1
    subst h2
    simp [decodeCursorGo, hm, hrec]

end Lemmas

/-- Claim C1 (code bug): the claim says that IsAlive on a never-opened
handle is false and that, once opened, IsAlive is true exactly when the
Ping probe succeeds. The source computes Client.Ping(ctx, nil) != nil, so
the never-opened case is false as claimed, but an opened handle whose
probe succeeds (nil ping error) reports false and an opened handle whose
probe fails reports true — the opposite of the claim and of the doc
comment of IsAlive. -/
theorem C1_isAlive_inverted :
    Driver.IsAlive { client := none } = false
  ∧ Driver.IsAlive { client := some { pingError := none } } = false
  ∧ Driver.IsAlive { client := some { pingError := some (GoError.driverErr 3) } }
      = true :=
  ⟨rfl, rfl, rfl⟩

/-- Claim C2, counterexample: the claim requires construction to fail on a
blank (whitespace) collection name and on a base type that is a pointer to
a non-struct type, and requires a blank id field to fall back to the
default. The source accepts the collection consisting of one space,
accepts the pointer-to-int base type, and keeps the one-space id field
verbatim. -/
theorem C2_blank_inputs_accepted :
    isOk (NewRepository (GoType.ptrT (GoType.structT [])) (some d0) " " "x")
      = true
  ∧ isOk (NewRepository (GoType.ptrT GoType.intT) (some d0) "c" "x") = true
  ∧ NewRepository (GoType.ptrT (GoType.structT [])) (some d0) "c" " " =
      Except.ok
        { baseType := GoType.ptrT (GoType.structT [])
          idField := " "
          collection := "c"
          driver := d0 } :=
  ⟨rfl, rfl, rfl⟩

/-- Claim C2, amended: NewRepository fails exactly when the driver is nil
(ErrDriverNil), or the collection name is the empty string
(ErrCollectionEmpty — no trimming, no case-insensitive blank check), or
the kind of the base type is not pointer (formatted type error — the
pointee is not required to be struct-like); on success the base type and
collection are stored verbatim and only an idField equal to the empty
string is replaced by the default "_id". -/
theorem C2_construction_rule (bt : GoType) (dr : Option Driver)
    (c i : String) :
    (isOk (NewRepository bt dr c i) = true ↔
        dr.isSome = true ∧ ¬c = "" ∧ bt.kind = GoKind.ptrK)
  ∧ (∀ r : Repository, NewRepository bt dr c i = Except.ok r →
        r.baseType = bt ∧ r.collection = c ∧ dr = some r.driver ∧
        r.idField = if i = "" then "_id" else i)
  ∧ NewRepository bt none c i = Except.error GoError.driverNil
  ∧ (∀ d2 : Driver, c = "" →
        NewRepository bt (some d2) c i = Except.error GoError.collectionEmpty)
  ∧ (∀ d2 : Driver, ¬c = "" → ¬bt.kind = GoKind.ptrK →
        NewRepository bt (some d2) c i =
          Except.error (GoError.typeError bt.kind)) := by
  refine ⟨?_, ?_, ?_, ?_, ?_⟩
  · cases dr with
    | none => simp [NewRepository, isOk]
    | some d2 =>
      by_cases hc : c = ""
      · simp [NewRepository, isOk, hc]
      · by_cases hk : bt.kind = GoKind.ptrK
        · simp [NewRepository, isOk, hc, hk]
        · simp [NewRepository, isOk, hc, hk]
  · intro r h
    cases dr with
    | none => simp [NewRepository] at h
    | some d2 =>
      by_cases hc : c = ""
      · simp [NewRepository, hc] at h
      · by_cases hk : bt.kind = GoKind.ptrK
        · simp [NewRepository, hc, hk] at h
          subst h
          simp
        · simp [NewRepository, hc, hk] at h
  · rfl
  · intro d2 hc
    simp [NewRepository, hc]
  · intro d2 hc hk
    simp [NewRepository, hc, hk]

/-- Witness for the amended C2 rule at a concrete input: the rule applied
to a pointer-to-int base type, a live driver, a non-empty collection and
an empty id field. -/
theorem C2_construction_rule_witness :
    isOk (NewRepository (GoType.ptrT GoType.intT) (some d0) "c" "") = true :=
  (C2_construction_rule (GoType.ptrT GoType.intT) (some d0) "c" "").1.mpr
    ⟨rfl, by decide, rfl⟩

/-- Claim C3, counterexample: the claim says every repository that
NewRepository accepts supports every CRUD call without failure or crash
caused by the shape. NewRepository accepts the pointer-to-int base type,
and on that repository the field enumeration of Update (NumField inside
filterMap) is a reflect panic, modelled by none. -/
theorem C3_intPointer_update_panics :
    NewRepository (GoType.ptrT GoType.intT) (some d0) "c" "" =
      Except.ok repoInt
  ∧ Repository.filterMapGo (V := Nat) repoInt [("a", 1)] = none
  ∧ Repository.Update repoInt db0 (Ctx.caller 0) [] [("a", 1)] = none :=
  ⟨rfl, rfl, rfl⟩

/-- Claim C3, amended: for every repository NewRepository constructs whose
base type points to a struct type, no per-call validation exists and no
operation can panic on the shape: the field enumeration of Update and the
fresh-instance decoding of Insert and InsertMany are defined for every
input (Find, FindByID, Exists and the deletes are total functions of the
model outright). For an accepted pointer to a non-struct type, Update
panics, as the counterexample shows. -/
theorem C3_per_call_totality {D V : Type} (fs : List StructField)
    (d : Driver) (c i : String) (db : DB D V) (ctx : Ctx)
    (f ch : List (String × V)) (v : V) (vs : List V) (id : V) :
    ∀ r : Repository,
      NewRepository (GoType.ptrT (GoType.structT fs)) (some d) c i =
        Except.ok r →
        (r.filterMapGo ch).isSome = true
      ∧ (r.Update db ctx f ch).isSome = true
      ∧ (r.UpdateByID db ctx id ch).isSome = true
      ∧ (r.decodeIntoBaseGo db v).isSome = true
      ∧ (r.Insert db ctx v).isSome = true
      ∧ (r.InsertMany db ctx vs).isSome = true := by
  intro r h
  by_cases hc : c = ""
  · simp [NewRepository, hc] at h
  · simp [NewRepository, hc, GoType.kind] at h
    subst h
    refine ⟨rfl, ?_, ?_, rfl, ?_, ?_⟩
    · simp only [Repository.Update, Repository.filterMapGo]
      split <;> simp
    · simp only [Repository.UpdateByID, Repository.Update,
        Repository.filterMapGo]
      split <;> simp
    · simp only [Repository.Insert, Repository.decodeIntoBaseGo]
      rcases db.mapDecode (GoType.structT fs) v with ⟨dec, err⟩
      cases err <;> simp
    · simp only [Repository.InsertMany]
      rcases decodeAll db (GoType.structT fs) vs with e | ds <;> simp

/-- Witness for the C3 totality statement: the rule applied to the test
fixture repository with concrete arguments. -/
theorem C3_per_call_totality_witness :
    (Repository.Update repoTest db0 (Ctx.caller 0) []
      [("a", (1 : Nat))]).isSome = true :=
  (C3_per_call_totality testFields d0 "test" "ID" db0 (Ctx.caller 0) []
    [("a", 1)] 0 [] 0 repoTest rfl).2.1

/-- Claim C4: FindByID delegates to Find with the single-key id filter; an
error of Find is returned unchanged, zero matches yield
ErrDocumentNotFound, exactly one match yields that record, and two or
more matches yield ErrMultipleMatches. -/
theorem C4_findByID_policy {D V : Type} (r : Repository) (db : DB D V)
    (ctx : Ctx) (id : V) :
    (∀ ms : List V, ∀ e : GoError, ∀ tr,
        r.Find db ctx [(r.idField, id)] = ((ms, some e), tr) →
        r.FindByID db ctx id = ((none, some e), tr))
  ∧ (∀ tr, r.Find db ctx [(r.idField, id)] = (([], none), tr) →
        r.FindByID db ctx id = ((none, some GoError.documentNotFound), tr))
  ∧ (∀ m tr, r.Find db ctx [(r.idField, id)] = (([m], none), tr) →
        r.FindByID db ctx id = ((some m, none), tr))
  ∧ (∀ m m2 rest tr,
        r.Find db ctx [(r.idField, id)] = ((m :: m2 :: rest, none), tr) →
        r.FindByID db ctx id = ((none, some GoError.multipleMatches), tr)) := by
  refine ⟨?_, ?_, ?_, ?_⟩
  · intro ms e tr h
    simp [Repository.FindByID, h]
  · intro tr h
    simp [Repository.FindByID, h]
  · intro m tr h
    simp [Repository.FindByID, h]
  · intro m m2 rest tr h
    simp [Repository.FindByID, h]

/-- Witness for C4: the exactly-one case at a concrete oracle whose query
yields one document. -/
theorem C4_findByID_policy_witness :
    Repository.FindByID repoTest db1 (Ctx.caller 0) 5 =
      ((some 0, none),
        [DCall.findQ (Ctx.caller 0) [("ID", 5)], DCall.next Ctx.background,
          DCall.next Ctx.background]) :=
  (C4_findByID_policy repoTest db1 (Ctx.caller 0) 5).2.2.1 0
    [DCall.findQ (Ctx.caller 0) [("ID", 5)], DCall.next Ctx.background,
      DCall.next Ctx.background] rfl

/-- Claim C5: Update keeps exactly the keys of the changes map that resolve
through the storage-name mapping to an existing field of the base type;
when nothing survives it returns the zero-effect descriptor without any
driver call, and otherwise it issues exactly one set-fields update of the
surviving keys against the filter with the upsert option left false. -/
theorem C5_update_filtering {D V : Type} (fs : List StructField)
    (r : Repository) (db : DB D V) (ctx : Ctx) (f ch : List (String × V))
    (hbt : r.baseType = GoType.ptrT (GoType.structT fs)) :
    (∀ kv ∈ ch, (kv ∈ filterMapPure fs ch ↔ keepKey fs kv.1 = true))
  ∧ (filterMapPure fs ch = [] →
        r.Update db ctx f ch =
          some ((some (zeroUpdateResult V), none), (filterMapPure fs ch, [])))
  ∧ (filterMapPure fs ch ≠ [] →
        r.Update db ctx f ch =
          some (db.updateOneOutcome f (filterMapPure fs ch),
            (filterMapPure fs ch,
              [DCall.updateOne ctx f (filterMapPure fs ch) false]))) := by
  refine ⟨?_, ?_, ?_⟩
  · intro kv hkv
    simp [filterMapPure, List.mem_filter, hkv]
  · intro h0
    simp [Repository.Update, Repository.filterMapGo, hbt, h0]
  · intro hne
    have hlen : ¬(filterMapPure fs ch).length = 0 := by
      simpa [List.length_eq_zero] using hne
    simp [Repository.Update, Repository.filterMapGo, hbt, hlen]

/-- Witness for C5 at the test fixture: of the keys surname (resolving to
the Surname field through its bson tag) and bogus (resolving to no field),
only surname survives and is the single set field of the issued update. -/
theorem C5_update_filtering_witness :
    Repository.Update repoTest db1 (Ctx.caller 0) []
      [("surname", (1 : Nat)), ("bogus", 2)] =
      some (db1.updateOneOutcome [] [("surname", 1)],
        ([("surname", 1)],
          [DCall.updateOne (Ctx.caller 0) [] [("surname", 1)] false])) := by
  have h := (C5_update_filtering testFields repoTest db1 (Ctx.caller 0) []
    [("surname", 1), ("bogus", 2)] rfl).2.2 (by decide)
  have hf : filterMapPure testFields [("surname", (1 : Nat)), ("bogus", 2)] =
      [("surname", 1)] := by decide
  rw [hf] at h
  exact h

/-- Claim C6: InsertMany decodes every element independently in input
order; when every decode succeeds it issues exactly one batched insert of
all decoded values in input order, and when some element fails to decode
(the first failure being at the distinguished position) the whole call
fails with that decode error and no driver call is issued. -/
theorem C6_insertMany_all_or_nothing {D V : Type} (el : GoType)
    (r : Repository) (db : DB D V) (ctx : Ctx) (vs : List V)
    (hbt : r.baseType = GoType.ptrT el) :
    ((∀ v ∈ vs, (db.mapDecode el v).2 = none) →
        r.InsertMany db ctx vs =
          some (db.insertManyOutcome (vs.map fun v => (db.mapDecode el v).1),
            [DCall.insertMany ctx (vs.map fun v => (db.mapDecode el v).1)]))
  ∧ (∀ pre v post, vs = pre ++ v :: post →
        (∀ u ∈ pre, (db.mapDecode el u).2 = none) →
        ∀ e, (db.mapDecode el v).2 = some e →
        r.InsertMany db ctx vs = some ((none, some e), [])) := by
  constructor
  · intro hall
    have hd := decodeAll_ok_of_all_none db el vs hall
    simp [Repository.InsertMany, hbt, hd]
  · intro pre v post hsplit hpre e hv
    have hd := decodeAll_error_of_first db el pre v post e hpre hv
    rw [← hsplit] at hd
    simp [Repository.InsertMany, hbt, hd]

/-- Witness for C6: with inputs 1, 13, 2 where only 13 fails to decode, the
whole call fails with the decode error of 13 and the trace is empty. -/
theorem C6_insertMany_all_or_nothing_witness :
    Repository.InsertMany repoTest db2 (Ctx.caller 0) [1, 13, 2] =
      some ((none, some (GoError.driverErr 7)), []) :=
  (C6_insertMany_all_or_nothing (GoType.structT testFields) repoTest db2
    (Ctx.caller 0) [1, 13, 2] rfl).2 [1] 13 [2] rfl (by decide) _ rfl

/-- Claim C7: Find returns the empty sequence and no error when the query
matches nothing; a query execution error is returned as the error of the
call; when every document decodes, all decoded values are returned in
cursor order; and when some document fails to decode (the first failure at
the distinguished position) the whole call fails with that decode error
and the partially decoded results are discarded. -/
theorem C7_find_error_policy {D V : Type} (r : Repository) (db : DB D V)
    (ctx : Ctx) (f : List (String × V)) :
    (db.findOutcome f = Except.ok [] → (r.Find db ctx f).1 = ([], none))
  ∧ (∀ e, db.findOutcome f = Except.error e →
        (r.Find db ctx f).1 = ([], some e))
  ∧ (∀ docs, db.findOutcome f = Except.ok docs →
        (∀ d ∈ docs, (db.decode d).2 = none) →
        (r.Find db ctx f).1 = (docs.map fun d => (db.decode d).1, none))
  ∧ (∀ pre d post, db.findOutcome f = Except.ok (pre ++ d :: post) →
        (∀ x ∈ pre, (db.decode x).2 = none) →
        ∀ e, (db.decode d).2 = some e →
        (r.Find db ctx f).1 = ([], some e)) := by
  refine ⟨?_, ?_, ?_, ?_⟩
  · intro h
    simp [Repository.Find, h, decodeCursorGo]
  · intro e h
    simp [Repository.Find, h]
  · intro docs h hall
    have hd := decodeCursorGo_ok db docs hall
    simp [Repository.Find, h, hd]
  · intro pre d post h hpre e hd
    have hc := decodeCursorGo_error db pre d post e hpre hd
    rcases hm : decodeCursorGo db (pre ++ d :: post) with ⟨res, tr⟩
    rw [hm] at hc
    simp only at hc
    subst hc
    simp [Repository.Find, h, hm]

/-- Witness for C7: with a cursor yielding documents 1 and 13 where only 13
fails to decode, Find discards the decoded 1 and fails with the decode
error of 13. -/
theorem C7_find_error_policy_witness :
    (Repository.Find repoTest db2 (Ctx.caller 0)
      ([] : List (String × Nat))).1 = ([], some (GoError.driverErr 9)) :=
  (C7_find_error_policy repoTest db2 (Ctx.caller 0) []).2.2.2 [1] 13 [] rfl
    (by decide) _ rfl

/-- Claim C8: the boolean of Exists equals the comparison of the match
count of Find on the same filter against zero, its error slot and its
driver trace are those of Find, and ExistsByID is Exists on the single-key
id filter. -/
theorem C8_exists_iff_find {D V : Type} (r : Repository) (db : DB D V)
    (ctx : Ctx) (f : List (String × V)) (id : V) :
    (r.Exists db ctx f).1.1 = decide (((r.Find db ctx f).1.1).length > 0)
  ∧ (r.Exists db ctx f).1.2 = (r.Find db ctx f).1.2
  ∧ (r.Exists db ctx f).2 = (r.Find db ctx f).2
  ∧ r.ExistsByID db ctx id = r.Exists db ctx [(r.idField, id)] := by
  rcases h : r.Find db ctx f with ⟨⟨ms, err⟩, tr⟩
  refine ⟨?_, ?_, ?_, rfl⟩ <;> simp [Repository.Exists, h]

/-- Claim C9 (code bug): against a caller-supplied context, the query call
of Find receives that context, and so does the insert call of Insert, but
every cursor advancement performed while decoding the results of Find
receives context.Background() instead of the caller context, contradicting
the claim that every driver call of a CRUD operation receives the caller
context. -/
theorem C9_cursor_background_context :
    (Repository.Find repoTest db1 (Ctx.caller 7)
        ([] : List (String × Nat))).2 =
      [DCall.findQ (Ctx.caller 7) [], DCall.next Ctx.background,
        DCall.next Ctx.background]
  ∧ (Repository.Insert repoTest db1 (Ctx.caller 7) 5).map Prod.snd =
      some [DCall.insertOne (Ctx.caller 7) 5]
  ∧ Ctx.background ≠ Ctx.caller 7 :=
  ⟨rfl, rfl, by decide⟩

/-- Claim C10: Update mutates the caller-supplied changes map in place;
the model returns the final contents of that map, which equal exactly the
resolving keys, are exactly the set fields of the issued update when
non-empty, and are the map on which the short-circuit decision is taken.
UpdateByID leaves the same final contents. -/
theorem C10_update_mutates_changes {D V : Type} (fs : List StructField)
    (r : Repository) (db : DB D V) (ctx : Ctx) (f ch : List (String × V))
    (id : V) (hbt : r.baseType = GoType.ptrT (GoType.structT fs)) :
    (r.Update db ctx f ch).map (fun x => x.2.1) = some (filterMapPure fs ch)
  ∧ (r.UpdateByID db ctx id ch).map (fun x => x.2.1) =
      some (filterMapPure fs ch)
  ∧ (∀ kv ∈ ch, (kv ∈ filterMapPure fs ch ↔ keepKey fs kv.1 = true))
  ∧ (filterMapPure fs ch = [] →
        r.Update db ctx f ch =
          some ((some (zeroUpdateResult V), none), (filterMapPure fs ch, [])))
  ∧ (filterMapPure fs ch ≠ [] →
        (r.Update db ctx f ch).map (fun x => x.2.2) =
          some [DCall.updateOne ctx f (filterMapPure fs ch) false]) := by
  refine ⟨?_, ?_, ?_, ?_, ?_⟩
  · simp only [Repository.Update, Repository.filterMapGo, hbt]
    split <;> simp
  · simp only [Repository.UpdateByID, Repository.Update,
      Repository.filterMapGo, hbt]
    split <;> simp
  · intro kv hkv
    simp [filterMapPure, List.mem_filter, hkv]
  · intro h0
    simp [Repository.Update, Repository.filterMapGo, hbt, h0]
  · intro hne
    have hlen : ¬(filterMapPure fs ch).length = 0 := by
      simpa [List.length_eq_zero] using hne
    simp [Repository.Update, Repository.filterMapGo, hbt, hlen]

/-- Witness for C10 at the test fixture: a changes map holding only a
non-resolving key is left empty after the call. -/
theorem C10_update_mutates_changes_witness :
    (Repository.Update repoTest db1 (Ctx.caller 0) []
      [("bogus", (2 : Nat))]).map (fun x => x.2.1) = some [] := by
  have h := (C10_update_mutates_changes testFields repoTest db1 (Ctx.caller 0)
    [] [("bogus", 2)] 0 rfl).1
  have hf : filterMapPure testFields [("bogus", (2 : Nat))] = [] := by decide
  rw [hf] at h
  exact h

end Mongodialect
